import Mathlib

/-
Verification of the installation-patching subsystem of the repository
(file patch_cursor_get_machine_id.py) against its specification.

The Python source is shallowly embedded:
  - strings are Lean String / List Char;
  - the filesystem is a map from path strings to optional file contents
    plus a writability predicate (file metadata other than content is not
    modelled; no claim depends on permission bits);
  - Python exceptions are modelled with Option, the surrounding
    try/except blocks with the corresponding match;
  - the two re.sub patterns of modify_main_js are embedded as a direct
    scanning matcher (the patterns use only literals, the greedy
    one-or-more classes with a single excluded character, and one capture
    group, so the regex engine's behaviour on them is fully determined:
    a greedy run of characters distinct from the excluded one, with no
    productive backtracking);
  - re.match of the version pattern and Python int() are embedded over
    the ASCII fragment (all inputs appearing in the claims are ASCII);
    the embedding includes the CPython detail that a dollar anchor also
    matches just before a single trailing newline.
-/

/-! ## Python version-string machinery (version_check, lines 112-147) -/

/-- Whitespace accepted and stripped by Python int(); ASCII fragment. -/
def isPySpace (c : Char) : Bool :=
  c = ' ' || c = '\t' || c = '\n' || c = '\r' || c = '\x0b' || c = '\x0c'

/-- Strip leading and trailing Python whitespace, as int() does. -/
def stripWs (g : List Char) : List Char :=
  ((g.dropWhile isPySpace).reverse.dropWhile isPySpace).reverse

/-- Numeric value of a list of decimal digit characters. -/
def digitsValN (ds : List Char) : Nat :=
  ds.foldl (fun n c => 10 * n + (c.toNat - '0'.toNat)) 0

/-- Convert a stripped, unsigned digit string to an integer; none when the
string is empty or holds a non-digit (int() raises ValueError there). -/
def digitsOnly (ds : List Char) : Option Int :=
  if ds ≠ [] ∧ ds.all Char.isDigit = true then some (digitsValN ds : Int) else none

/-- Embedding of Python int() on the ASCII decimal fragment: optional
surrounding whitespace, optional single sign, one or more digits. -/
def pyInt (g : List Char) : Option Int :=
  match stripWs g with
  | [] => none
  | c :: ds =>
    if c = '+' then digitsOnly ds
    else if c = '-' then (digitsOnly ds).map (fun n => -n)
    else digitsOnly (c :: ds)

/-- Embedding of Python str.split on the single-character separator dot:
every dot separates, empty pieces are kept, the result is never empty. -/
def splitDot : List Char → List (List Char)
  | [] => [[]]
  | c :: rest =>
    if c = '.' then [] :: splitDot rest
    else
      match splitDot rest with
      | [] => [[c]]
      | g :: gs => (c :: g) :: gs

/-- A nonempty all-digit group (one maximal run matched by a digit-plus
regex atom; ASCII fragment of a Python digit class). -/
def isDigitGroup (g : List Char) : Bool :=
  !g.isEmpty && g.all Char.isDigit

/-- The last dot-separated group additionally may carry one trailing
newline, because a dollar anchor in re.match also matches just before a
single final newline. -/
def isLastGroup (g : List Char) : Bool :=
  isDigitGroup g || (g.getLast? = some '\n' && isDigitGroup g.dropLast)

/-- Embedding of re.match of the anchored triple-of-digit-runs version
pattern used at line 124 of the source, as a truth value. -/
def versionPatternMatch (s : String) : Bool :=
  match splitDot s.data with
  | [g1, g2, g3] => isDigitGroup g1 && isDigitGroup g2 && isLastGroup g3
  | _ => false

/-- Map pyInt over the split groups, propagating the first failure, as
tuple(map(int, ...)) does under the surrounding try/except. -/
def parseParts : List (List Char) → Option (List Int)
  | [] => some []
  | g :: gs =>
    match pyInt g, parseParts gs with
    | some n, some ns => some (n :: ns)
    | _, _ => none

/-- Embedding of the nested parse_version helper (line 130): split the
string on dots and convert every piece with int(). -/
def parse_version (s : String) : Option (List Int) :=
  parseParts (splitDot s.data)

/-- Python tuple comparison, strict less-than: lexicographic, a strict
prefix is smaller. -/
def tupLt : List Int → List Int → Bool
  | [], [] => false
  | [], _ :: _ => true
  | _ :: _, [] => false
  | a :: as, b :: bs => if a < b then true else if b < a then false else tupLt as bs

/-- Python tuple comparison, less-or-equal. -/
def tupLe : List Int → List Int → Bool
  | [], _ => true
  | _ :: _, [] => false
  | a :: as, b :: bs => if a < b then true else if b < a then false else tupLe as bs

/-- The minimum-bound test of version_check (line 135): none models a
ValueError escaping from parse_version, some b tells whether the bound is
violated; an empty bound string is falsy in Python and imposes nothing. -/
def minViolation (current : List Int) (b : String) : Option Bool :=
  if b = "" then some false
  else (parse_version b).map (fun t => tupLt current t)

/-- The maximum-bound test of version_check (line 139); current strictly
greater than the bound is the mirrored strict comparison. -/
def maxViolation (current : List Int) (b : String) : Option Bool :=
  if b = "" then some false
  else (parse_version b).map (fun t => tupLt t current)

/-- Embedding of version_check (lines 112-147): regex-validate only the
version argument, then parse and compare; any exception from parsing a
bound is caught and yields false. -/
def version_check (version : String) (min_version : String := "") (max_version : String := "") : Bool :=
  if versionPatternMatch version then
    match parse_version version with
    | none => false
    | some current =>
      match minViolation current min_version with
      | none => false
      | some b1 =>
        if b1 then false
        else
          match maxViolation current max_version with
          | none => false
          | some b2 => if b2 then false else true
  else false

/-- The parsed triple of a version string, junk-defaulted; used only under
a hypothesis that parsing succeeds. -/
def tripleOf (s : String) : List Int :=
  (parse_version s).getD []

/-! ## The patching content transformation (modify_main_js, lines 167-185) -/

/-- Consume an exact literal from the front of the input, returning the
remainder. -/
def dropLit : List Char → List Char → Option (List Char)
  | [], cs => some cs
  | _ :: _, [] => none
  | l :: ls, c :: cs => if c = l then dropLit ls cs else none

/-- Try to match one accessor pattern at the head of the input: the fixed
literal, a nonempty greedy run without a question mark, two question
marks, a nonempty greedy capture without a closing brace, the closing
brace. Returns the capture and the input past the match. This is exactly
the regex of lines 173-174 at one position: the excluded-character
classes make greedy matching deterministic, with no backtracking. -/
def tryMatch (lit : List Char) (cs : List Char) : Option (List Char × List Char) :=
  match dropLit lit cs with
  | none => none
  | some r0 =>
    let a := r0.takeWhile (fun c => c ≠ '?')
    let r1 := r0.dropWhile (fun c => c ≠ '?')
    if a.isEmpty then none
    else
      match r1 with
      | '?' :: '?' :: r2 =>
        let b := r2.takeWhile (fun c => c ≠ '\x7d')
        let r3 := r2.dropWhile (fun c => c ≠ '\x7d')
        if b.isEmpty then none
        else
          match r3 with
          | '\x7d' :: rest => some (b, rest)
          | _ => none
      | _ => none

/-- One pass of re.sub for one accessor pattern: scan left to right, at
each position emit the replacement (the literal, the capture, the closing
brace) and continue after the match, or advance one character. Fuel is
the input length; every match consumes at least one character (the
literal is nonempty), so the fuel never runs out before the input does. -/
def subFuel (lit : List Char) : Nat → List Char → List Char
  | 0, cs => cs
  | _ + 1, [] => []
  | fuel + 1, c :: cs =>
    match tryMatch lit (c :: cs) with
    | some (b, rest) => lit ++ b ++ '\x7d' :: subFuel lit fuel rest
    | none => c :: subFuel lit fuel cs

/-- Replace every occurrence of one accessor pattern, as re.sub does. -/
def subAll (lit : List Char) (cs : List Char) : List Char :=
  subFuel lit cs.length cs

/-- Whether some position of the input matches the pattern of the given
literal. -/
def hasMatch (lit : List Char) : List Char → Bool
  | [] => false
  | c :: cs => (tryMatch lit (c :: cs)).isSome || hasMatch lit cs

/-- The literal head of the first substitution rule (line 173). -/
def getMachineIdLit : String := "async getMachineId()\x7breturn "

/-- The literal head of the second substitution rule (line 174). -/
def getMacMachineIdLit : String := "async getMacMachineId()\x7breturn "

/-- The pure content transformation of modify_main_js (lines 172-178):
the two substitution rules applied to the whole content in dictionary
insertion order. -/
def patchContent (s : String) : String :=
  ⟨subAll getMacMachineIdLit.data (subAll getMachineIdLit.data s.data)⟩

/-- Whether one string leads with another, over character lists. -/
def leadsWith : List Char → List Char → Bool
  | [], _ => true
  | _ :: _, [] => false
  | a :: as, b :: bs => a = b && leadsWith as bs

/-- Substring occurrence over character lists. -/
def occursInL (needle : List Char) : List Char → Bool
  | [] => needle.isEmpty
  | c :: cs => leadsWith needle (c :: cs) || occursInL needle cs

/-- Substring occurrence between strings: needle occurs in hay. -/
def occursIn (needle hay : String) : Bool :=
  occursInL needle.data hay.data

/-! ## Filesystem model and the file-level operations -/

/-- The filesystem: optional text content per path plus writability. -/
structure FS where
  content : String → Option String
  writable : String → Bool

/-- Write (create or overwrite) one file's content. -/
def FS.setContent (fs : FS) (p : String) (v : String) : FS :=
  ⟨fun q => if q = p then some v else fs.content q, fs.writable⟩

/-- Path joining as os.path.join performs it on the relative subpaths
used by the source (a separator between base and tail). -/
def pjoin (a b : String) : String := a ++ "/" ++ b

/-- The candidate-list loop of get_cursor_paths on Linux (lines 67-72):
try each base in order, select the first whose manifest subpath exists,
none models the OSError when all candidates are exhausted. -/
def get_cursor_paths_linux (fs : FS) : List String → Option (String × String)
  | [] => none
  | base :: rest =>
    if (fs.content (pjoin base "package.json")).isSome then
      some (pjoin base "package.json", pjoin base "out/main.js")
    else get_cursor_paths_linux fs rest

/-- The fixed candidate bases of the source (line 58). -/
def linuxBases : List String :=
  ["/opt/Cursor/resources/app", "/usr/share/cursor/resources/app"]

/-- get_cursor_paths on a Linux host. -/
def get_cursor_paths (fs : FS) : Option (String × String) :=
  get_cursor_paths_linux fs linuxBases

/-- Embedding of check_system_requirements (lines 89-109): both files
exist and are writable. -/
def check_system_requirements (fs : FS) (pkg main : String) : Bool :=
  ((fs.content pkg).isSome && fs.writable pkg) &&
    ((fs.content main).isSome && fs.writable main)

/-- Embedding of backup_files (lines 202-223): copy the target beside
itself with a bak suffix when it exists; report success either way. -/
def backup_files (fs : FS) (pkg main : String) : Bool × FS :=
  match fs.content main with
  | some c => (true, fs.setContent (main ++ ".bak") c)
  | none => (true, fs)

/-- Embedding of restore_backup_files (lines 226-249): copy the bak
sibling back over the target when it exists, else fail. -/
def restore_backup_files (fs : FS) (pkg main : String) : Bool × FS :=
  match fs.content (main ++ ".bak") with
  | some b => (true, fs.setContent main b)
  | none => (false, fs)

/-- Embedding of modify_main_js (lines 150-199): read the target (a
missing target raises at the stat call and yields false), write the
original content to an old-suffixed sibling, then move the transformed
content into place. Permission and ownership restoration touch only
metadata, which the model does not track. -/
def modify_main_js (fs : FS) (main : String) : Bool × FS :=
  match fs.content main with
  | none => (false, fs)
  | some c =>
    (true, (fs.setContent (main ++ ".old") c).setContent main (patchContent c))

/-- Embedding of the orchestrator patch_cursor_get_machine_id
(lines 252-306). The located argument is the outcome of get_cursor_paths
(none models the OSError caught by the outer handler). The readVersion
argument abstracts the external JSON library call that extracts the
version field from the manifest document; none models a parse failure.
The result is the process exit code together with the final filesystem;
note the source returns normally, exit code zero, from restore mode
whether or not the restore succeeded. -/
def patch_cursor_get_machine_id (restore_mode : Bool)
    (located : Option (String × String))
    (readVersion : String → Option String)
    (fs : FS) : Nat × FS :=
  match located with
  | none => (1, fs)
  | some (pkg_path, main_path) =>
    if check_system_requirements fs pkg_path main_path then
      if restore_mode then
        (0, (restore_backup_files fs pkg_path main_path).snd)
      else
        match fs.content pkg_path with
        | none => (1, fs)
        | some doc =>
          match readVersion doc with
          | none => (1, fs)
          | some version =>
            if version_check version "0.45.0" "" then
              let r1 := backup_files fs pkg_path main_path
              if r1.fst then
                let r2 := modify_main_js r1.snd main_path
                if r2.fst then (0, r2.snd) else (1, r2.snd)
              else (1, r1.snd)
            else (1, fs)
    else (1, fs)

/-! ## Helper lemmas -/

theorem digit_not_space (c : Char) (h : c.isDigit = true) : isPySpace c = false := by
  by_contra hne
  have hs : isPySpace c = true := by
    cases hps : isPySpace c
    · exact absurd hps hne
    · rfl
  unfold isPySpace at hs
  simp only [Bool.or_eq_true, decide_eq_true_eq] at hs
  rcases hs with ((((h1 | h1) | h1) | h1) | h1) | h1 <;> subst h1 <;>
    exact absurd h (by decide)

theorem digit_ne_plus (c : Char) (h : c.isDigit = true) : c ≠ '+' := by
  intro he; subst he; exact absurd h (by decide)

theorem digit_ne_minus (c : Char) (h : c.isDigit = true) : c ≠ '-' := by
  intro he; subst he; exact absurd h (by decide)

theorem dropWhile_digits (g : List Char) (h : ∀ x ∈ g, x.isDigit = true) :
    g.dropWhile isPySpace = g := by
  cases g with
  | nil => rfl
  | cons c cs =>
    have hc : isPySpace c = false := digit_not_space c (h c (by simp))
    simp [List.dropWhile_cons, hc]

theorem stripWs_digits (g : List Char) (h : ∀ x ∈ g, x.isDigit = true) :
    stripWs g = g := by
  unfold stripWs
  rw [dropWhile_digits g h,
    dropWhile_digits g.reverse (fun x hx => h x (List.mem_reverse.mp hx)),
    List.reverse_reverse]

theorem stripWs_digits_newline (ds : List Char) (hne : ds ≠ [])
    (h : ∀ x ∈ ds, x.isDigit = true) : stripWs (ds ++ ['\n']) = ds := by
  unfold stripWs
  have h1 : (ds ++ ['\n']).dropWhile isPySpace = ds ++ ['\n'] := by
    cases ds with
    | nil => exact absurd rfl hne
    | cons c cs =>
      have hc : isPySpace c = false := digit_not_space c (h c (by simp))
      simp [List.cons_append, List.dropWhile_cons, hc]
  rw [h1]
  have h2 : (ds ++ ['\n']).reverse = '\n' :: ds.reverse := by simp
  rw [h2, List.dropWhile_cons_of_pos (by decide : isPySpace '\n' = true),
    dropWhile_digits ds.reverse (fun x hx => h x (List.mem_reverse.mp hx)),
    List.reverse_reverse]

theorem pyInt_digitGroup (g : List Char) (h : isDigitGroup g = true) :
    pyInt g = some (digitsValN g : Int) := by
  have hall : ∀ x ∈ g, x.isDigit = true := by
    have h2 := (Bool.and_eq_true _ _).mp h |>.2
    exact fun x hx => List.all_eq_true.mp h2 x hx
  cases g with
  | nil => simp [isDigitGroup] at h
  | cons c cs =>
    have hs : stripWs (c :: cs) = c :: cs := stripWs_digits _ hall
    have hc : c.isDigit = true := hall c (by simp)
    simp only [pyInt, hs]
    rw [if_neg (digit_ne_plus c hc), if_neg (digit_ne_minus c hc)]
    unfold digitsOnly
    rw [if_pos ⟨List.cons_ne_nil _ _, List.all_eq_true.mpr hall⟩]

theorem pyInt_lastGroup (g : List Char) (h : isLastGroup g = true) :
    ∃ n, pyInt g = some n := by
  unfold isLastGroup at h
  rcases (Bool.or_eq_true _ _).mp h with h1 | h2
  · exact ⟨_, pyInt_digitGroup g h1⟩
  · obtain ⟨hlastb, hdg⟩ := (Bool.and_eq_true _ _).mp h2
    have hlast : g.getLast? = some '\n' := of_decide_eq_true hlastb
    have hne : g ≠ [] := by intro he; subst he; simp at hlast
    have hgl : g.getLast hne = '\n' := by
      have hx := List.getLast?_eq_getLast g hne
      rw [hx] at hlast
      exact Option.some.injEq _ _ ▸ hlast
    have hg : g.dropLast ++ ['\n'] = g := by
      rw [← hgl]; exact List.dropLast_append_getLast hne
    have hdne : g.dropLast ≠ [] := by
      intro he; rw [he] at hdg; simp [isDigitGroup] at hdg
    have hall : ∀ x ∈ g.dropLast, x.isDigit = true := by
      have hd2 := (Bool.and_eq_true _ _).mp hdg |>.2
      exact fun x hx => List.all_eq_true.mp hd2 x hx
    have hs : stripWs g = g.dropLast := by
      conv_lhs => rw [← hg]
      exact stripWs_digits_newline _ hdne hall
    cases hd : g.dropLast with
    | nil => exact absurd hd hdne
    | cons c cs =>
      rw [hd] at hs hall
      have hc : c.isDigit = true := hall c (by simp)
      refine ⟨(digitsValN (c :: cs) : Int), ?_⟩
      simp only [pyInt, hs]
      rw [if_neg (digit_ne_plus c hc), if_neg (digit_ne_minus c hc)]
      unfold digitsOnly
      rw [if_pos ⟨List.cons_ne_nil _ _, List.all_eq_true.mpr hall⟩]

theorem parse_of_pattern (s : String) (h : versionPatternMatch s = true) :
    parse_version s = some (tripleOf s) := by
  unfold versionPatternMatch at h
  unfold tripleOf parse_version
  cases hgs : splitDot s.data with
  | nil => rw [hgs] at h; simp at h
  | cons g1 t1 =>
    cases t1 with
    | nil => rw [hgs] at h; simp at h
    | cons g2 t2 =>
      cases t2 with
      | nil => rw [hgs] at h; simp at h
      | cons g3 t3 =>
        cases t3 with
        | cons g4 t4 => rw [hgs] at h; simp at h
        | nil =>
          rw [hgs] at h
          have h' : (isDigitGroup g1 && isDigitGroup g2 && isLastGroup g3) = true := h
          obtain ⟨h12, h3⟩ := (Bool.and_eq_true _ _).mp h'
          obtain ⟨h1, h2⟩ := (Bool.and_eq_true _ _).mp h12
          obtain ⟨n3, hn3⟩ := pyInt_lastGroup g3 h3
          simp [parseParts, pyInt_digitGroup g1 h1, pyInt_digitGroup g2 h2, hn3]

theorem tupLe_eq_not_tupLt : ∀ a b : List Int, tupLe a b = !tupLt b a := by
  intro a
  induction a with
  | nil => intro b; cases b <;> rfl
  | cons x xs ih =>
    intro b
    cases b with
    | nil => rfl
    | cons y ys =>
      by_cases hxy : x < y
      · have hyx : ¬ y < x := by omega
        simp [tupLe, tupLt, hxy, hyx]
      · by_cases hyx : y < x
        · simp [tupLe, tupLt, hxy, hyx]
        · simp [tupLe, tupLt, hxy, hyx, ih ys]

theorem tupLt_of_lt_of_le :
    ∀ a b c : List Int, tupLt a b = true → tupLe b c = true → tupLt a c = true := by
  intro a
  induction a with
  | nil =>
    intro b c h1 h2
    cases b with
    | nil => simp [tupLt] at h1
    | cons y ys =>
      cases c with
      | nil => simp [tupLe] at h2
      | cons z zs => rfl
  | cons x xs ih =>
    intro b c h1 h2
    cases b with
    | nil => simp [tupLt] at h1
    | cons y ys =>
      cases c with
      | nil => simp [tupLe] at h2
      | cons z zs =>
        simp only [tupLt] at h1 ⊢
        simp only [tupLe] at h2
        by_cases hxy : x < y
        · by_cases hyz : y < z
          · have hxz : x < z := by omega
            simp [hxz]
          · by_cases hzy : z < y
            · simp [hyz, hzy] at h2
            · have hxz : x < z := by omega
              simp [hxz]
        · by_cases hyx : y < x
          · simp [hxy, hyx] at h1
          · by_cases hyz : y < z
            · have hxz : x < z := by omega
              simp [hxz]
            · by_cases hzy : z < y
              · simp [hyz, hzy] at h2
              · have hxz1 : ¬ x < z := by omega
                have hxz2 : ¬ z < x := by omega
                have h1' : tupLt xs ys = true := by simpa [hxy, hyx] using h1
                have h2' : tupLe ys zs = true := by simpa [hyz, hzy] using h2
                simp [hxz1, hxz2, ih ys zs h1' h2']

theorem sub_id_of_no_match (lit : List Char) :
    ∀ (fuel : Nat) (cs : List Char), hasMatch lit cs = false → subFuel lit fuel cs = cs := by
  intro fuel
  induction fuel with
  | zero => intro cs _; rfl
  | succ n ih =>
    intro cs h
    cases cs with
    | nil => rfl
    | cons c cs' =>
      simp only [hasMatch] at h
      have h1 : tryMatch lit (c :: cs') = none := by
        cases htm : tryMatch lit (c :: cs') with
        | none => rfl
        | some v => rw [htm] at h; simp at h
      have h2 : hasMatch lit cs' = false := by
        rw [h1] at h; simpa using h
      simp only [subFuel, h1]
      rw [ih cs' h2]

theorem self_ne_append (s t : String) (h : t.data ≠ []) : s ≠ s ++ t := by
  intro he
  have hd : s.data = (s ++ t).data := congrArg String.data he
  have hd2 : (s ++ t).data = s.data ++ t.data := rfl
  rw [hd2] at hd
  have h2 := congrArg List.length hd
  rw [List.length_append] at h2
  have h0 : t.data.length = 0 := by omega
  exact h (List.length_eq_zero.mp h0)

theorem backup_files_fst (fs : FS) (pkg main : String) :
    (backup_files fs pkg main).fst = true := by
  unfold backup_files
  cases fs.content main <;> rfl

theorem locate_none_iff (fs : FS) : ∀ bases : List String,
    get_cursor_paths_linux fs bases = none ↔
      ∀ b ∈ bases, fs.content (pjoin b "package.json") = none := by
  intro bases
  induction bases with
  | nil => simp [get_cursor_paths_linux]
  | cons base rest ih =>
    simp only [get_cursor_paths_linux]
    by_cases hb : (fs.content (pjoin base "package.json")).isSome = true
    · rw [if_pos hb]
      constructor
      · intro h; exact absurd h (by simp)
      · intro h
        have hx := h base (by simp)
        rw [hx] at hb; simp at hb
    · rw [if_neg hb]
      rw [ih]
      constructor
      · intro h b hbmem
        rcases List.mem_cons.mp hbmem with rfl | hmem
        · exact Option.not_isSome_iff_eq_none.mp hb
        · exact h b hmem
      · intro h b hbmem
        exact h b (List.mem_cons_of_mem _ hbmem)

theorem locate_first (fs : FS) :
    ∀ (pre : List String) (base : String) (post : List String),
      (∀ p ∈ pre, fs.content (pjoin p "package.json") = none) →
      (fs.content (pjoin base "package.json")).isSome = true →
      get_cursor_paths_linux fs (pre ++ base :: post) =
        some (pjoin base "package.json", pjoin base "out/main.js") := by
  intro pre
  induction pre with
  | nil =>
    intro base post _ hbase
    simp [get_cursor_paths_linux, hbase]
  | cons p pre' ih =>
    intro base post hpre hbase
    have hp : fs.content (pjoin p "package.json") = none := hpre p (by simp)
    simp only [List.cons_append, get_cursor_paths_linux, hp]
    rw [if_neg (by simp)]
    exact ih base post (fun q hq => hpre q (by simp [hq])) hbase

/-! ## Concrete filesystems used by the closed theorems -/

/-- A filesystem holding a manifest declaring 0.46.1 and a target file
whose content is exactly the generic machine-id accessor. -/
def c1fs : FS :=
  ⟨fun p =>
    if p = "pkg.json" then some "0.46.1"
    else if p = "main.js" then
      some "async getMachineId()\x7breturn a.machineId ?? b.machineId\x7d"
    else none,
   fun _ => true⟩

/-- The orchestrator run on c1fs in normal mode, with the manifest
document read as the version itself. -/
def c1run : Nat × FS :=
  patch_cursor_get_machine_id false (some ("pkg.json", "main.js")) (fun s => some s) c1fs

/-- A filesystem with both required files present but no backup sibling. -/
def c5fs : FS :=
  ⟨fun p =>
    if p = "pkg.json" then some "0.46.1"
    else if p = "main.js" then some "content" else none,
   fun _ => true⟩

/-- A filesystem whose manifest declares version 0.44.0. -/
def c6fs : FS :=
  ⟨fun p =>
    if p = "pkg.json" then some "0.44.0"
    else if p = "main.js" then some "m" else none,
   fun _ => true⟩

/-- A filesystem where only the second candidate base holds a manifest. -/
def c7fs : FS :=
  ⟨fun p => if p = "/b/package.json" then some "m" else none, fun _ => false⟩

/-- An empty filesystem. -/
def c10fs : FS := ⟨fun _ => none, fun _ => false⟩

/-- A filesystem holding only a target file. -/
def c9fs : FS :=
  ⟨fun p => if p = "main.js" then some "body" else none, fun _ => true⟩

/-! ## Claims -/

/-- Claim C1, counterexample. For the target content of the claim, the
patch run succeeds and rewrites the file, but the resulting content is
the one with the captured leading space kept (two spaces after return),
and the exact text the claim requires does not occur in it. -/
theorem C1_counterexample :
    c1run.fst = 0 ∧
    c1run.snd.content "main.js" =
      some "async getMachineId()\x7breturn  b.machineId\x7d" ∧
    occursIn "async getMachineId()\x7breturn b.machineId\x7d"
      "async getMachineId()\x7breturn  b.machineId\x7d" = false := by
  refine ⟨?_, ?_, ?_⟩ <;> decide

/-- Claim C1 as amended: for a target file whose content is the accessor
text of the claim, the patch run rewrites it to
async getMachineId()\x7breturn  b.machineId\x7d — with two spaces,
because the replacement template supplies a space after return and the
captured fallback expression keeps its leading space — and a sibling
bak file exists containing the original pre-patch text. -/
theorem C1_amended :
    c1run.fst = 0 ∧
    c1run.snd.content "main.js" =
      some "async getMachineId()\x7breturn  b.machineId\x7d" ∧
    c1run.snd.content "main.js.bak" =
      some "async getMachineId()\x7breturn a.machineId ?? b.machineId\x7d" := by
  refine ⟨?_, ?_, ?_⟩ <;> decide

/-- Claim C2, counterexample. The transformation is not idempotent for
every input: on a chained fallback the first application leaves a content
that still matches the rule, so a second application changes it again. -/
theorem C2_counterexample :
    patchContent (patchContent "async getMachineId()\x7breturn a ?? b ?? c\x7d") ≠
      patchContent "async getMachineId()\x7breturn a ?? b ?? c\x7d" := by
  decide

/-- Claim C2 as amended: a second application is a no-op whenever the
once-patched content no longer matches either rule (in particular
whenever a file lacks the matched patterns, every rule is a no-op); it is
not a no-op for every input. -/
theorem C2_amended (c : String)
    (h1 : hasMatch getMachineIdLit.data (patchContent c).data = false)
    (h2 : hasMatch getMacMachineIdLit.data (patchContent c).data = false) :
    patchContent (patchContent c) = patchContent c := by
  have e1 : subAll getMachineIdLit.data (patchContent c).data = (patchContent c).data :=
    sub_id_of_no_match _ _ _ h1
  have e2 : subAll getMacMachineIdLit.data (patchContent c).data = (patchContent c).data :=
    sub_id_of_no_match _ _ _ h2
  show (⟨subAll getMacMachineIdLit.data
      (subAll getMachineIdLit.data (patchContent c).data)⟩ : String) = patchContent c
  rw [e1, e2]

/-- Witness for C2_amended at the claim's own scenario content. -/
theorem C2_amended_witness :
    hasMatch getMachineIdLit.data
      (patchContent "async getMachineId()\x7breturn a.machineId ?? b.machineId\x7d").data
        = false ∧
    hasMatch getMacMachineIdLit.data
      (patchContent "async getMachineId()\x7breturn a.machineId ?? b.machineId\x7d").data
        = false ∧
    patchContent (patchContent "async getMachineId()\x7breturn a.machineId ?? b.machineId\x7d")
      = patchContent "async getMachineId()\x7breturn a.machineId ?? b.machineId\x7d" :=
  ⟨by decide, by decide, C2_amended _ (by decide) (by decide)⟩

/-- Claim C3: for a version matching the dotted-triple pattern and bounds
that are absent or themselves dotted triples, the check is true exactly
when the version is at least the minimum bound (when present) and at
most the maximum bound (when present), both inclusive; in particular the
two concrete examples of the claim hold. -/
theorem C3_version_satisfaction :
    (∀ v mi ma : String, versionPatternMatch v = true →
      (mi = "" ∨ versionPatternMatch mi = true) →
      (ma = "" ∨ versionPatternMatch ma = true) →
      (version_check v mi ma = true ↔
        ((mi = "" ∨ tupLe (tripleOf mi) (tripleOf v) = true) ∧
         (ma = "" ∨ tupLe (tripleOf v) (tripleOf ma) = true)))) ∧
    version_check "0.45.0" "0.45.0" "" = true ∧
    version_check "0.44.9" "0.45.0" "" = false := by
  refine ⟨?_, by decide, by decide⟩
  intro v mi ma hv hmi hma
  have hpv := parse_of_pattern v hv
  rcases hmi with rfl | hmi
  · rcases hma with rfl | hma
    · simp [version_check, hv, hpv, minViolation, maxViolation]
    · have hmane : ma ≠ "" := fun he => by subst he; exact absurd hma (by decide)
      have hpma := parse_of_pattern ma hma
      cases hb2 : tupLt (tripleOf ma) (tripleOf v) <;>
        simp [version_check, hv, hpv, minViolation, maxViolation, hmane, hpma, hb2,
          tupLe_eq_not_tupLt]
  · have hmine : mi ≠ "" := fun he => by subst he; exact absurd hmi (by decide)
    have hpmi := parse_of_pattern mi hmi
    rcases hma with rfl | hma
    · cases hb1 : tupLt (tripleOf v) (tripleOf mi) <;>
        simp [version_check, hv, hpv, minViolation, maxViolation, hmine, hpmi, hb1,
          tupLe_eq_not_tupLt]
    · have hmane : ma ≠ "" := fun he => by subst he; exact absurd hma (by decide)
      have hpma := parse_of_pattern ma hma
      cases hb1 : tupLt (tripleOf v) (tripleOf mi) <;>
        cases hb2 : tupLt (tripleOf ma) (tripleOf v) <;>
          simp [version_check, hv, hpv, minViolation, maxViolation, hmine, hmane,
            hpmi, hpma, hb1, hb2, tupLe_eq_not_tupLt]

/-- Witness for C3_version_satisfaction at a concrete version and bound. -/
theorem C3_witness :
    versionPatternMatch "0.45.1" = true ∧
    (version_check "0.45.1" "0.45.0" "" = true ↔
      (("0.45.0" = "" ∨ tupLe (tripleOf "0.45.0") (tripleOf "0.45.1") = true) ∧
       (("" : String) = "" ∨ tupLe (tripleOf "0.45.1") (tripleOf "") = true))) :=
  ⟨by decide,
   C3_version_satisfaction.1 "0.45.1" "0.45.0" ""
     (by decide) (Or.inr (by decide)) (Or.inl rfl)⟩

/-- Claim C4, counterexample. A malformed minimum bound is not rejected:
the bound 1.2 fails the dotted-triple pattern, yet the check parses it as
a shorter tuple, compares, and reports the version as satisfying. -/
theorem C4_counterexample :
    versionPatternMatch "1.2" = false ∧ version_check "2.0.0" "1.2" "" = true := by
  refine ⟨?_, ?_⟩ <;> decide

/-- Claim C4 as amended: only the version argument is format-checked:
a malformed version is rejected fail-closed, and a bound whose integer
conversion raises (such as a.b.c) also yields not-satisfied; but a
malformed bound whose pieces all parse as integers (such as 1.2) is
partially parsed as a shorter tuple and compared rather than rejected. -/
theorem C4_amended :
    (∀ v mi ma : String, versionPatternMatch v = false →
      version_check v mi ma = false) ∧
    (∀ v mi ma : String, mi ≠ "" → parse_version mi = none →
      version_check v mi ma = false) ∧
    version_check "2.0.0" "1.2" "" = true ∧
    version_check "2.0.0" "a.b.c" "" = false := by
  refine ⟨?_, ?_, by decide, by decide⟩
  · intro v mi ma hv
    simp [version_check, hv]
  · intro v mi ma hne hpn
    unfold version_check
    cases hv : versionPatternMatch v
    · simp
    · cases hpv : parse_version v
      · simp
      · simp [minViolation, hne, hpn]

/-- Witness for C4_amended: the malformed version 1.2 is rejected. -/
theorem C4_amended_witness :
    versionPatternMatch "1.2" = false ∧ version_check "1.2" "" "" = false :=
  ⟨by decide, C4_amended.1 "1.2" "" "" (by decide)⟩

/-- Claim C5, counterexample. In restore mode with no backup present the
restore operation fails, yet the orchestrator returns from the restore
branch and the process exits with status zero, not non-zero. -/
theorem C5_counterexample :
    (restore_backup_files c5fs "pkg.json" "main.js").fst = false ∧
    patch_cursor_get_machine_id true (some ("pkg.json", "main.js"))
      (fun s => some s) c5fs = (0, c5fs) := by
  exact ⟨rfl, rfl⟩

/-- Claim C5 as amended: a failed location, requirement check, version
read or version policy exits non-zero, and in normal mode completion
exits zero; but in restore mode, once the requirement check passes, the
process exits zero whether or not the restore succeeded (a restore
failure is logged, not fatal). -/
theorem C5_amended :
    (∀ (rm : Bool) (rv : String → Option String) (fs : FS),
        (patch_cursor_get_machine_id rm none rv fs).fst = 1) ∧
    (∀ (rm : Bool) (rv : String → Option String) (fs : FS) (pkg main : String),
        check_system_requirements fs pkg main = false →
        (patch_cursor_get_machine_id rm (some (pkg, main)) rv fs).fst = 1) ∧
    (∀ (rv : String → Option String) (fs : FS) (pkg main : String),
        check_system_requirements fs pkg main = true →
        (patch_cursor_get_machine_id true (some (pkg, main)) rv fs).fst = 0) ∧
    (∀ (rv : String → Option String) (fs : FS) (pkg main doc : String),
        fs.content pkg = some doc → rv doc = none →
        (patch_cursor_get_machine_id false (some (pkg, main)) rv fs).fst = 1) ∧
    (∀ (rv : String → Option String) (fs : FS) (pkg main : String),
        fs.content pkg = none →
        (patch_cursor_get_machine_id false (some (pkg, main)) rv fs).fst = 1) ∧
    (∀ (rv : String → Option String) (fs : FS) (pkg main doc v : String),
        check_system_requirements fs pkg main = true →
        fs.content pkg = some doc → rv doc = some v →
        ((version_check v "0.45.0" "" = false →
            (patch_cursor_get_machine_id false (some (pkg, main)) rv fs).fst = 1) ∧
         (version_check v "0.45.0" "" = true →
            (patch_cursor_get_machine_id false (some (pkg, main)) rv fs).fst = 0))) := by
  refine ⟨fun rm rv fs => rfl, ?_, ?_, ?_, ?_, ?_⟩
  · intro rm rv fs pkg main h
    simp [patch_cursor_get_machine_id, h]
  · intro rv fs pkg main h
    simp [patch_cursor_get_machine_id, h]
  · intro rv fs pkg main doc hdoc hrv
    cases hreq : check_system_requirements fs pkg main <;>
      simp [patch_cursor_get_machine_id, hreq, hdoc, hrv]
  · intro rv fs pkg main hdoc
    cases hreq : check_system_requirements fs pkg main <;>
      simp [patch_cursor_get_machine_id, hreq, hdoc]
  · intro rv fs pkg main doc v hreq hdoc hrv
    constructor
    · intro hbad
      simp [patch_cursor_get_machine_id, hreq, hdoc, hrv, hbad]
    · intro hok
      have hmain : (fs.content main).isSome = true := by
        have h2 := (Bool.and_eq_true _ _).mp hreq |>.2
        exact (Bool.and_eq_true _ _).mp h2 |>.1
      obtain ⟨c, hc⟩ := Option.isSome_iff_exists.mp hmain
      have hb : backup_files fs pkg main = (true, fs.setContent (main ++ ".bak") c) := by
        unfold backup_files
        rw [hc]
      have hmain2 : (fs.setContent (main ++ ".bak") c).content main = some c := by
        unfold FS.setContent
        simp only []
        rw [if_neg (self_ne_append main ".bak" (by decide))]
        exact hc
      simp [patch_cursor_get_machine_id, hreq, hdoc, hrv, hok, hb,
        modify_main_js, hmain2]

/-- Witness for C5_amended: the restore-mode conjunct at a concrete
filesystem whose requirement check passes. -/
theorem C5_amended_witness :
    check_system_requirements c5fs "pkg.json" "main.js" = true ∧
    (patch_cursor_get_machine_id true (some ("pkg.json", "main.js"))
      (fun s => some s) c5fs).fst = 0 :=
  ⟨by decide, C5_amended.2.2.1 (fun s => some s) c5fs "pkg.json" "main.js" (by decide)⟩

/-- Claim C6: in normal mode, when the declared version fails the
minimum-version policy, the orchestrator exits non-zero with the
filesystem completely untouched, so the target is unchanged and no
backup file is created. -/
theorem C6_version_gate (rv : String → Option String) (fs : FS)
    (pkg main doc v : String)
    (hreq : check_system_requirements fs pkg main = true)
    (hdoc : fs.content pkg = some doc) (hrv : rv doc = some v)
    (hbad : version_check v "0.45.0" "" = false) :
    patch_cursor_get_machine_id false (some (pkg, main)) rv fs = (1, fs) := by
  simp [patch_cursor_get_machine_id, hreq, hdoc, hrv, hbad]

/-- Witness for C6_version_gate: manifest declares 0.44.0 against the
minimum 0.45.0. -/
theorem C6_witness :
    check_system_requirements c6fs "pkg.json" "main.js" = true ∧
    c6fs.content "pkg.json" = some "0.44.0" ∧
    version_check "0.44.0" "0.45.0" "" = false ∧
    patch_cursor_get_machine_id false (some ("pkg.json", "main.js"))
      (fun s => some s) c6fs = (1, c6fs) :=
  ⟨by decide, by decide, by decide,
   C6_version_gate (fun s => some s) c6fs "pkg.json" "main.js" "0.44.0" "0.44.0"
     (by decide) (by decide) rfl (by decide)⟩

/-- Claim C7: the candidate-list locator returns the paths rooted at the
first candidate in declared order whose manifest subpath exists, and
yields the not-found failure exactly when no candidate's manifest
exists; the Linux locator is this loop on the fixed candidate list. -/
theorem C7_locator (fs : FS) (bases : List String) :
    (get_cursor_paths_linux fs bases = none ↔
       ∀ b ∈ bases, fs.content (pjoin b "package.json") = none) ∧
    (∀ pre base post, bases = pre ++ base :: post →
       (∀ p ∈ pre, fs.content (pjoin p "package.json") = none) →
       (fs.content (pjoin base "package.json")).isSome = true →
       get_cursor_paths_linux fs bases =
         some (pjoin base "package.json", pjoin base "out/main.js")) ∧
    get_cursor_paths fs = get_cursor_paths_linux fs linuxBases := by
  refine ⟨locate_none_iff fs bases, ?_, rfl⟩
  intro pre base post heq hpre hbase
  rw [heq]
  exact locate_first fs pre base post hpre hbase

/-- Witness for C7_locator: two candidates, only the second has a
manifest, so the second is selected. -/
theorem C7_witness :
    (["/a", "/b"] : List String) = ["/a"] ++ "/b" :: [] ∧
    (∀ p ∈ (["/a"] : List String), c7fs.content (pjoin p "package.json") = none) ∧
    (c7fs.content (pjoin "/b" "package.json")).isSome = true ∧
    get_cursor_paths_linux c7fs ["/a", "/b"] =
      some (pjoin "/b" "package.json", pjoin "/b" "out/main.js") :=
  ⟨rfl, by decide, by decide,
   (C7_locator c7fs ["/a", "/b"]).2.1 ["/a"] "/b" [] rfl (by decide) (by decide)⟩

/-- Claim C8: with a valid version and valid bounds, raising the minimum
bound never turns an unsatisfied check into a satisfied one. -/
theorem C8_min_bound_monotone (v m1 m2 : String)
    (hv : versionPatternMatch v = true)
    (h1 : versionPatternMatch m1 = true)
    (h2 : versionPatternMatch m2 = true)
    (hle : tupLe (tripleOf m1) (tripleOf m2) = true)
    (hfalse : version_check v m1 "" = false) :
    version_check v m2 "" = false := by
  have hpv := parse_of_pattern v hv
  have hp1 := parse_of_pattern m1 h1
  have hp2 := parse_of_pattern m2 h2
  have hne1 : m1 ≠ "" := fun he => by subst he; exact absurd h1 (by decide)
  have hne2 : m2 ≠ "" := fun he => by subst he; exact absurd h2 (by decide)
  have hlt1 : tupLt (tripleOf v) (tripleOf m1) = true := by
    by_contra hx
    have hx' : tupLt (tripleOf v) (tripleOf m1) = false := by
      cases hy : tupLt (tripleOf v) (tripleOf m1)
      · rfl
      · exact absurd hy hx
    simp [version_check, hv, hpv, minViolation, maxViolation, hne1, hp1, hx'] at hfalse
  have hlt2 : tupLt (tripleOf v) (tripleOf m2) = true :=
    tupLt_of_lt_of_le _ _ _ hlt1 hle
  simp [version_check, hv, hpv, minViolation, hne2, hp2, hlt2]

/-- Witness for C8_min_bound_monotone at concrete versions. -/
theorem C8_witness :
    versionPatternMatch "0.44.0" = true ∧
    versionPatternMatch "0.45.0" = true ∧
    versionPatternMatch "0.46.0" = true ∧
    tupLe (tripleOf "0.45.0") (tripleOf "0.46.0") = true ∧
    version_check "0.44.0" "0.45.0" "" = false ∧
    version_check "0.44.0" "0.46.0" "" = false :=
  ⟨by decide, by decide, by decide, by decide, by decide,
   C8_min_bound_monotone "0.44.0" "0.45.0" "0.46.0"
     (by decide) (by decide) (by decide) (by decide) (by decide)⟩

/-- Claim C9: every successful patch writes a second sibling copy of the
original pre-patch content at the old-suffixed path, overwriting any
existing file there, while the target itself receives the transformed
content. -/
theorem C9_old_sibling (fs : FS) (main c : String)
    (h : fs.content main = some c) :
    (modify_main_js fs main).fst = true ∧
    (modify_main_js fs main).snd.content (main ++ ".old") = some c ∧
    (modify_main_js fs main).snd.content main = some (patchContent c) := by
  unfold modify_main_js
  rw [h]
  refine ⟨rfl, ?_, ?_⟩
  · show ((fs.setContent (main ++ ".old") c).setContent main
        (patchContent c)).content (main ++ ".old") = some c
    unfold FS.setContent
    simp only []
    rw [if_neg (Ne.symm (self_ne_append main ".old" (by decide)))]
    simp
  · show ((fs.setContent (main ++ ".old") c).setContent main
        (patchContent c)).content main = some (patchContent c)
    unfold FS.setContent
    simp

/-- Witness for C9_old_sibling at a concrete filesystem. -/
theorem C9_witness :
    c9fs.content "main.js" = some "body" ∧
    (modify_main_js c9fs "main.js").fst = true ∧
    (modify_main_js c9fs "main.js").snd.content "main.js.old" = some "body" ∧
    (modify_main_js c9fs "main.js").snd.content "main.js" =
      some (patchContent "body") :=
  ⟨rfl, C9_old_sibling c9fs "main.js" "body" rfl⟩

/-- Claim C10: when the target file is absent, the backup operation
still reports success and leaves the filesystem untouched, creating no
bak file. -/
theorem C10_backup_absent (fs : FS) (pkg main : String)
    (h : fs.content main = none) :
    backup_files fs pkg main = (true, fs) := by
  unfold backup_files
  rw [h]

/-- Witness for C10_backup_absent on the empty filesystem. -/
theorem C10_witness :
    c10fs.content "main.js" = none ∧
    backup_files c10fs "pkg.json" "main.js" = (true, c10fs) :=
  ⟨rfl, C10_backup_absent c10fs "pkg.json" "main.js" rfl⟩
